import Mathlib

/-!
Verification of the mpdfm scrobbling daemon core.

This file gives a shallow embedding of the AS20 protocol adapter and its
retry cache (src/protocols/as20.cpp, include/protocols/as20.hpp), of the
request signing map (the `audioscrobbler_request` helper), and of the
playback session tracker (`state_tracker` in the main translation unit),
and proves the specification's claims about them.

Modelling conventions:
* `time_t` fields of `scrobble_entry` are modelled as `Nat`: every write to
  them in the program comes from unsigned MPD fields (`song::duration`,
  `status::elapsed_time`) or from `time(nullptr)` values, all non-negative.
* The retry cache `std::set<scrobble_entry, ts_compare>` is modelled as a
  list kept strictly sorted by timestamp; `std::set::insert` does nothing
  when an element with an equivalent key (same timestamp) is present.
* The batches captured by pending `http->run` completion callbacks are
  modelled as an explicit `inflight` component of the adapter state.
* The MD5 primitive lives in OpenSSL, outside this repository; it is
  modelled as an arbitrary function `md5 : String -> List Nat` from the
  digested byte stream (a concatenation of strings) to the 16 digest
  bytes.  Every theorem about signing is proved for all such functions.
-/

namespace mpdfm

/-- The `scrobble_entry` value type (include/scrobbler.hpp): tag strings,
duration, start timestamp and elapsed listening time, with the C++ default
member initializers (empty strings and zeroes). -/
structure scrobble_entry where
  artist : String := ""
  track : String := ""
  album : String := ""
  track_number : String := ""
  mbid : String := ""
  album_artist : String := ""
  duration : Nat := 0
  timestamp : Nat := 0
  elapsed : Nat := 0
  deriving DecidableEq, Repr

/-- as20::do_check_preconditions (src/protocols/as20.cpp:244-247):
`played = std::min<unsigned>(240, s.duration / 2)` and the result is
`s.duration > 30 && s.elapsed > played`. -/
def do_check_preconditions (s : scrobble_entry) : Bool :=
  let played := min 240 (s.duration / 2)
  decide (s.duration > 30) && decide (s.elapsed > played)

/-- The retry cache is a `std::set` ordered by `ts_compare`
(`lhs.timestamp < rhs.timestamp`, include/protocols/as20.hpp); we model it
as a list strictly sorted by timestamp.  `cacheInsert` is `std::set::insert`
of one element: it keeps the existing element when an equivalent one
(equal timestamp) is already resident. -/
def cacheInsert (e : scrobble_entry) : List scrobble_entry → List scrobble_entry
  | [] => [e]
  | x :: xs =>
    if e.timestamp < x.timestamp then e :: x :: xs
    else if x.timestamp < e.timestamp then x :: cacheInsert e xs
    else x :: xs

/-- Range insertion `m_cache.insert(to_send->begin(), to_send->end())`
(src/protocols/as20.cpp:358): the elements are inserted one by one in
order. -/
def cacheInsertAll (batch : List scrobble_entry) (c : List scrobble_entry) :
    List scrobble_entry :=
  batch.foldl (fun acc e => cacheInsert e acc) c

/-- Strict sortedness by timestamp, the representation invariant of the
`std::set` ordered by `ts_compare`. -/
def cacheSorted : List scrobble_entry → Bool
  | [] => true
  | [_] => true
  | x :: y :: xs => decide (x.timestamp < y.timestamp) && cacheSorted (y :: xs)

/-- An entry with the given timestamp is resident in the list. -/
def has_ts (ts : Nat) (l : List scrobble_entry) : Prop :=
  ∃ e ∈ l, e.timestamp = ts

instance (ts : Nat) (l : List scrobble_entry) : Decidable (has_ts ts l) := by
  unfold has_ts; infer_instance

/-- State of one `as20` scrobbler instance.  `cache` and `fail_flag` are the
members `m_cache` and `m_fail_flag`; `inflight` models the batches held by
the `to_send` shared pointers captured in pending `http->run` completion
callbacks (each pending scrobble request owns exactly one such batch). -/
structure as20_state where
  cache : List scrobble_entry := []
  fail_flag : Bool := false
  inflight : List (List scrobble_entry) := []
  deriving DecidableEq, Repr

/-- Observable result of a send attempt: `threw` models an exception
propagating out (no request dispatched), `idle` a return with no request
dispatched, `requested b` the dispatch of one HTTP request carrying the
entries `b`. -/
inductive send_result where
  | threw : send_result
  | idle : send_result
  | requested : List scrobble_entry → send_result
  deriving DecidableEq, Repr

/-- Outcome a completed scrobble HTTP exchange hands to the completion
callback: a transport error (`ec` set), a body that fails to parse as the
`response` envelope, or a parsed envelope carrying `message` and `error`
(defaulted to `""` and `0` by the `response` struct when absent). -/
inductive http_outcome where
  | transport_error : http_outcome
  | parse_error : http_outcome
  | api_response : String → Int → http_outcome
  deriving DecidableEq, Repr

/-- as20::send_scrobbles_coalesced, dispatch part
(src/protocols/as20.cpp:289-322): throw when `m_fail_flag` is set; return
when the cache is empty; otherwise extract up to `batch_size = 50` entries
from the front (smallest timestamps) of the ordered cache into `to_send`
and dispatch one request carrying them. -/
def send_scrobbles_coalesced (st : as20_state) : as20_state × send_result :=
  if st.fail_flag then (st, .threw)
  else if st.cache.isEmpty then (st, .idle)
  else
    ({ st with cache := st.cache.drop 50,
               inflight := st.inflight ++ [st.cache.take 50] },
     .requested (st.cache.take 50))

/-- as20::do_send_scrobble (src/protocols/as20.cpp:281-287): insert the
entry into `m_cache` under the mutex, then call
`send_scrobbles_coalesced`. -/
def do_send_scrobble (e : scrobble_entry) (st : as20_state) :
    as20_state × send_result :=
  send_scrobbles_coalesced { st with cache := cacheInsert e st.cache }

/-- as20::do_send_now_playing, dispatch part
(src/protocols/as20.cpp:249-267): throw when `m_fail_flag` is set,
otherwise dispatch a single request for the one track.  The member state is
never touched. -/
def do_send_now_playing (st : as20_state) (s : scrobble_entry) :
    as20_state × send_result :=
  if st.fail_flag then (st, .threw) else (st, .requested [s])

/-- Now-playing completion outcome: transport error or an HTTP status
code. -/
inductive np_outcome where
  | transport_error : np_outcome
  | status : Nat → np_outcome
  deriving DecidableEq, Repr

/-- The completion callback of as20::do_send_now_playing
(src/protocols/as20.cpp:268-278).  The lambda captures nothing: it can only
log.  An error code logs a request error; a status outside 200..299 logs a
failure; otherwise nothing happens. -/
def now_playing_callback : np_outcome → List String
  | .transport_error => ["request error when sending now playing"]
  | .status code =>
    if code < 200 ∨ code > 299 then ["now playing send failed, status: " ++ Nat.repr code]
    else []

/-- Effect of a now-playing completion on the instance: the state is
returned unchanged (the callback has no access to it), together with the
log lines it emits. -/
def now_playing_complete (st : as20_state) (oc : np_outcome) :
    as20_state × List String :=
  (st, now_playing_callback oc)

/-- A parsed envelope whose `message` is empty is a success
(src/protocols/as20.cpp:331). -/
def outcome_success : http_outcome → Bool
  | .api_response msg _ => msg = ""
  | _ => false

/-- Log line used by the catch-all failure handler, `spdlog::error("scrobble
fail: ...")` with the exception text (src/protocols/as20.cpp:359). -/
def scrobble_fail_log : http_outcome → String
  | .transport_error => "scrobble fail: http failure"
  | .parse_error => "scrobble fail: json parse error"
  | .api_response msg _ => "scrobble fail: api returned an error: " ++ msg

/-- The completion callback of as20::send_scrobbles_coalesced
(src/protocols/as20.cpp:323-361).  The pending batch `batch` leaves the
in-flight set when its callback runs.  A transport error or a parse failure
throws into the catch handler, which re-inserts the batch and logs.  A
parsed envelope with a non-empty `message` first sets `m_fail_flag` unless
the error code is 11 (service offline) or 16 (temporarily unavailable),
then throws into the same handler.  An empty `message` is a success: the
batch is dropped and `send_scrobbles_coalesced` is called again, any
exception from that recursive attempt being swallowed.  The returned
`send_result` is the request dispatched by that recursive call (if any)
and the list is the emitted log lines. -/
def scrobble_callback (st : as20_state) (batch : List scrobble_entry)
    (oc : http_outcome) : as20_state × send_result × List String :=
  let st₀ : as20_state := { st with inflight := st.inflight.erase batch }
  match oc with
  | .transport_error =>
    ({ st₀ with cache := cacheInsertAll batch st₀.cache }, .idle,
     [scrobble_fail_log oc])
  | .parse_error =>
    ({ st₀ with cache := cacheInsertAll batch st₀.cache }, .idle,
     [scrobble_fail_log oc])
  | .api_response msg err =>
    if msg = "" then
      let next := send_scrobbles_coalesced st₀
      (next.1, next.2, [])
    else
      let st₁ : as20_state :=
        if err = 11 ∨ err = 16 then st₀ else { st₀ with fail_flag := true }
      ({ st₁ with cache := cacheInsertAll batch st₁.cache }, .idle,
       [scrobble_fail_log oc])

/-- External events driving one `as20` instance: a scrobble submission from
the dispatch loop, or the completion of a pending scrobble request with a
given outcome. -/
inductive as20_event where
  | submit : scrobble_entry → as20_event
  | complete : List scrobble_entry → http_outcome → as20_event

/-- Runs a sequence of events against an instance state, accumulating in
`confirmed` the entries of every batch the remote confirmed as success.  A
completion event for a batch that is not pending is ignored (in the program
a callback only ever fires for a dispatched request). -/
def as20_run (st : as20_state) (confirmed : List scrobble_entry) :
    List as20_event → as20_state × List scrobble_entry
  | [] => (st, confirmed)
  | .submit e :: evs => as20_run (do_send_scrobble e st).1 confirmed evs
  | .complete batch oc :: evs =>
    if batch ∈ st.inflight then
      as20_run (scrobble_callback st batch oc).1
        (if outcome_success oc then confirmed ++ batch else confirmed) evs
    else as20_run st confirmed evs

/-- The entries submitted by a sequence of events. -/
def submitted_entries : List as20_event → List scrobble_entry
  | [] => []
  | .submit e :: evs => e :: submitted_entries evs
  | .complete _ _ :: evs => submitted_entries evs

/-- All entries the instance still holds: resident in the cache or carried
by a pending request. -/
def resident (st : as20_state) : List scrobble_entry :=
  st.cache ++ st.inflight.flatten

/-- The as20 destructor (src/protocols/as20.cpp:228-242): with an empty
store path nothing is written; otherwise the cache contents are written to
the store file (modelled for a writable stream; IO failures only log). -/
def as20_shutdown (path : String) (st : as20_state) :
    Option (List scrobble_entry) :=
  if path = "" then none else some st.cache

/-- The lowercase hex digit table (src/protocols/as20.cpp:105). -/
def hex_digits : List Char := "0123456789abcdef".toList

/-- Conversion of the 16 digest bytes to a lowercase hex string
(src/protocols/as20.cpp:154-160): digit `b >> 4` then digit `b & 0xf` for
each byte. -/
def to_hex_string (digest : List Nat) : String :=
  String.mk (digest.foldr
    (fun b acc => hex_digits.getD (b / 16) 'x' :: hex_digits.getD (b % 16) 'x' :: acc) [])

/-- The parameter map of `audioscrobbler_request` is a
`boost::container::flat_map<std::string, std::string>`: an association list
kept sorted in ascending key order.  `params_insert` is the effect of
`(*this)[key] = value` (`operator[]` plus assignment): the mapped value is
overwritten when the key exists, otherwise the pair is inserted at its
sorted position. -/
def params_insert (k v : String) : List (String × String) →
    List (String × String)
  | [] => [(k, v)]
  | (q, w) :: ps =>
    if k < q then (k, v) :: (q, w) :: ps
    else if q < k then (q, w) :: params_insert k v ps
    else (k, v) :: ps

/-- Lookup of the value mapped to a key. -/
def params_lookup (k : String) : List (String × String) → Option String
  | [] => none
  | (q, w) :: ps => if k = q then some w else params_lookup k ps

/-- Builds the parameter map by inserting the given key/value pairs in the
given order. -/
def params_build (kvs : List (String × String)) : List (String × String) :=
  kvs.foldl (fun m p => params_insert p.1 p.2 m) []

/-- Ascending (strict) key order of a parameter list. -/
def params_sorted : List (String × String) → Bool
  | [] => true
  | [_] => true
  | p :: q :: ps => decide (p.1 < q.1) && params_sorted (q :: ps)

/-- The byte stream digested by audioscrobbler_request::sign
(src/protocols/as20.cpp:121-147): each key immediately followed by its
value, in the map's ascending key order, then the api secret. -/
def sign_input (params : List (String × String)) (secret : String) : String :=
  (params.foldl (fun s p => s ++ p.1 ++ p.2) "") ++ secret

/-- audioscrobbler_request::sign: the digest of the byte stream, rendered
in lowercase hex.  The MD5 primitive (OpenSSL, external to this
repository) is a parameter `md5` from the digested stream to its 16
digest bytes. -/
def sign (md5 : String → List Nat) (params : List (String × String))
    (secret : String) : String :=
  to_hex_string (md5 (sign_input params secret))

/-- Byte classification of mpdfm::urlencode (uris translation unit):
alphanumeric bytes and `-`, `_`, `.`, `~` are kept. -/
def to_replace (x : Nat) : Bool :=
  !((decide (48 ≤ x) && decide (x ≤ 57)) || (decide (65 ≤ x) && decide (x ≤ 90))
    || (decide (97 ≤ x) && decide (x ≤ 122)) || decide (x = 45)
    || decide (x = 95) || decide (x = 46) || decide (x = 126))

/-- Encoding of one byte by mpdfm::urlencode: space becomes `+`, kept bytes
pass through, every other byte becomes `%` and two lowercase hex digits. -/
def urlencode_byte (x : Nat) : String :=
  if x = 32 then "+"
  else if to_replace x then
    String.mk ['%', hex_digits.getD (x / 16) 'x', hex_digits.getD (x % 16) 'x']
  else String.singleton (Char.ofNat x)

/-- mpdfm::urlencode: percent-encodes the UTF-8 bytes of the string. -/
def urlencode (s : String) : String :=
  (s.toUTF8.toList.map (fun b => urlencode_byte b.toNat)).foldl (· ++ ·) ""

/-- audioscrobbler_request::form (src/protocols/as20.cpp:169-178): the
url-encoded `&key=value` pairs in map order, then the literal
`&format=json`, then `&api_sig=` followed by the signature — the digest is
computed over `m_params` only, to which `format` and `api_sig` are never
added. -/
def form (md5 : String → List Nat) (params : List (String × String))
    (secret : String) : String :=
  (params.foldl (fun s p => s ++ "&" ++ urlencode p.1 ++ "=" ++ urlencode p.2) "")
    ++ "&format=json" ++ "&api_sig=" ++ sign md5 params secret

/-- audioscrobbler_request::add_tag (src/protocols/as20.cpp:193-198): a tag
is added only when its value is non-empty. -/
def add_tag (value field : String) (m : List (String × String)) :
    List (String × String) :=
  if value = "" then m else params_insert field value m

/-- audioscrobbler_request::add_track (src/protocols/as20.cpp:181-190):
artist, track, album, trackNumber, mbid and albumArtist tags (each only if
non-empty), then the duration, all with the given key suffix. -/
def add_track (s : scrobble_entry) (suffix : String)
    (m : List (String × String)) : List (String × String) :=
  params_insert ("duration" ++ suffix) (Nat.repr s.duration)
    (add_tag s.album_artist ("albumArtist" ++ suffix)
      (add_tag s.mbid ("mbid" ++ suffix)
        (add_tag s.track_number ("trackNumber" ++ suffix)
          (add_tag s.album ("album" ++ suffix)
            (add_tag s.track ("track" ++ suffix)
              (add_tag s.artist ("artist" ++ suffix) m))))))

/-- One iteration of the batch loop (src/protocols/as20.cpp:307-314): for
the entry at position `i`, `add_track` with suffix `[i]`, then the
timestamp parameter with the same suffix. -/
def scrobble_loop_step (m : List (String × String))
    (p : Nat × scrobble_entry) : List (String × String) :=
  let suffix := "[" ++ Nat.repr p.1 ++ "]"
  params_insert ("timestamp" ++ suffix) (Nat.repr p.2.timestamp)
    (add_track p.2 suffix m)

/-- The parameters of one scrobble batch request
(src/protocols/as20.cpp:299-314): `method`, `api_key` and `sk`, then for
the batch entry at position `i` its track fields and its timestamp, each
key suffixed with `[i]`. -/
def scrobble_request_params (api_key sk : String)
    (batch : List scrobble_entry) : List (String × String) :=
  batch.enum.foldl scrobble_loop_step
    (params_insert "sk" sk (params_insert "api_key" api_key
      (params_insert "method" "track.scrobble" [])))

/-- The request-parameter keys the batch loop inserts for position `i`. -/
def iteration_keys (i : Nat) : List String :=
  let suffix := "[" ++ Nat.repr i ++ "]"
  ["artist" ++ suffix, "track" ++ suffix, "album" ++ suffix,
   "trackNumber" ++ suffix, "mbid" ++ suffix, "albumArtist" ++ suffix,
   "duration" ++ suffix, "timestamp" ++ suffix]

/-- The playback session tracker (`state_tracker` in the main translation
unit), with its C++ default member initializers.  The current song is its
MPD id (`none` for a null song); `time(nullptr)` values are passed
explicitly as `now`. -/
structure state_tracker where
  song : Option Nat := none
  start : Int := 0
  last_play : Int := 0
  elapsed : Int := 0
  paused : Bool := false
  deriving DecidableEq, Repr

/-- state_tracker::pause: on the transition to paused, accumulate the time
since the last resume. -/
def state_tracker.pause (t : state_tracker) (now : Int) : state_tracker :=
  if t.paused then t
  else { t with paused := true, elapsed := t.elapsed + (now - t.last_play) }

/-- state_tracker::play: on the transition from paused, restart the elapsed
clock reference point. -/
def state_tracker.play (t : state_tracker) (now : Int) : state_tracker :=
  if t.paused then { t with paused := false, last_play := now } else t

/-- state_tracker::new_song: record the new song and start time, zero the
elapsed accumulator and the reference point, then call `play()` (which
does nothing unless the tracker was paused). -/
def state_tracker.new_song (t : state_tracker) (s : Nat) (now : Int) :
    state_tracker :=
  state_tracker.play
    { t with song := some s, start := now, elapsed := 0, last_play := 0 } now

/-- state_tracker::set_elapsed. -/
def state_tracker.set_elapsed (t : state_tracker) (e : Int) : state_tracker :=
  { t with elapsed := e }

/-- The startup resume block of run_scrobblers (main translation unit): on
a fresh tracker, if a song is current and the player reports playing,
`last.set_elapsed(status.elapsed_time())` then `last.new_song(song)`. -/
def run_scrobblers_startup (song : Option Nat) (state_is_play : Bool)
    (status_elapsed : Int) (now : Int) : state_tracker :=
  let last : state_tracker := {}
  match song with
  | some s =>
    if state_is_play then (last.set_elapsed status_elapsed).new_song s now
    else last
  | none => last

/-- Sizes of the successive batches a fully successful drain extracts from
a cache of `n` entries: 50 at a time until exhaustion. -/
def chunk_sizes (n : Nat) : List Nat :=
  if n = 0 then [] else min 50 n :: chunk_sizes (n - 50)
  decreasing_by simp_wf; omega

/-- The chain of requests dispatched when every response confirms success:
the pending batch `b` completes successfully, and the recursive
`send_scrobbles_coalesced` dispatches the next request, until the cache is
exhausted (or the fuel runs out). -/
def drain_chain : Nat → as20_state → List scrobble_entry → List Nat
  | 0, _, b => [b.length]
  | fuel + 1, st, b =>
    b.length ::
      (match scrobble_callback st b (.api_response "" 0) with
       | (st', .requested b', _) => drain_chain fuel st' b'
       | _ => [])

/-- Request sizes of one fully successful drain cycle started by
`send_scrobbles_coalesced` on the given state. -/
def drain_cycle_sizes (fuel : Nat) (st : as20_state) : List Nat :=
  match send_scrobbles_coalesced st with
  | (st', .requested b) => drain_chain fuel st' b
  | _ => []

/-- Concrete 120-entry cache used to instantiate batching facts. -/
def sample_cache : List scrobble_entry :=
  (List.range 120).map (fun i => { timestamp := i })

/-- A timestamp is accounted for: it appears in a batch confirmed by the
remote, or it is still held by the instance. -/
def covered (ts : Nat) (st : as20_state) (confirmed : List scrobble_entry) :
    Prop :=
  has_ts ts confirmed ∨ has_ts ts (resident st)

/- Helper lemmas about the cache. -/

theorem mem_cacheInsert_of_mem {x e : scrobble_entry}
    {l : List scrobble_entry} (h : x ∈ l) : x ∈ cacheInsert e l := by
  induction l with
  | nil => cases h
  | cons y ys ih =>
    simp only [cacheInsert]
    rcases List.mem_cons.mp h with rfl | hx
    · split_ifs <;> simp
    · split_ifs <;> simp [ih hx, hx]

theorem has_ts_cacheInsert_self (e : scrobble_entry)
    (l : List scrobble_entry) : has_ts e.timestamp (cacheInsert e l) := by
  induction l with
  | nil => exact ⟨e, by simp [cacheInsert]⟩
  | cons y ys ih =>
    simp only [cacheInsert]
    split_ifs with h1 h2
    · exact ⟨e, by simp⟩
    · rcases ih with ⟨w, hw, hts⟩
      exact ⟨w, by simp [hw], hts⟩
    · exact ⟨y, by simp, by omega⟩

theorem has_ts_cacheInsert_mono {ts : Nat} (e : scrobble_entry)
    {l : List scrobble_entry} (h : has_ts ts l) :
    has_ts ts (cacheInsert e l) := by
  rcases h with ⟨w, hw, hts⟩
  exact ⟨w, mem_cacheInsert_of_mem hw, hts⟩

theorem has_ts_cacheInsertAll_mono {ts : Nat} (batch : List scrobble_entry)
    {c : List scrobble_entry} (h : has_ts ts c) :
    has_ts ts (cacheInsertAll batch c) := by
  induction batch generalizing c with
  | nil => exact h
  | cons b bs ih => exact ih (has_ts_cacheInsert_mono b h)

theorem has_ts_cacheInsertAll_of_mem {e : scrobble_entry}
    {batch c : List scrobble_entry} (h : e ∈ batch) :
    has_ts e.timestamp (cacheInsertAll batch c) := by
  induction batch generalizing c with
  | nil => cases h
  | cons b bs ih =>
    rcases List.mem_cons.mp h with rfl | hx
    · exact has_ts_cacheInsertAll_mono bs (has_ts_cacheInsert_self e c)
    · exact ih hx

theorem mem_flatten_erase {α : Type} [DecidableEq α]
    (l : List (List α)) (b : List α) (x : α) (h : x ∈ l.flatten) :
    x ∈ (l.erase b).flatten ∨ x ∈ b := by
  induction l with
  | nil => simp at h
  | cons hd t ih =>
    rw [List.erase_cons]
    rcases List.mem_flatten.mp h with ⟨w, hw, hx⟩
    by_cases hb : hd = b
    · subst hb
      simp only [beq_self_eq_true, if_true]
      rcases List.mem_cons.mp hw with rfl | hw'
      · exact Or.inr hx
      · exact Or.inl (List.mem_flatten.mpr ⟨w, hw', hx⟩)
    · simp only [beq_iff_eq, hb, if_false]
      rcases List.mem_cons.mp hw with rfl | hw'
      · exact Or.inl (by simp [List.mem_flatten]; exact Or.inl hx)
      · rcases ih (List.mem_flatten.mpr ⟨w, hw', hx⟩) with h' | h'
        · exact Or.inl (by simp [List.mem_flatten] at h' ⊢; tauto)
        · exact Or.inr h'

theorem mem_resident_coalesced {st : as20_state} {x : scrobble_entry}
    (h : x ∈ resident st) :
    x ∈ resident (send_scrobbles_coalesced st).1 := by
  unfold send_scrobbles_coalesced
  split_ifs with h1 h2
  · exact h
  · exact h
  · unfold resident at h ⊢
    simp only [List.flatten_append, List.flatten_cons, List.flatten_nil,
      List.append_nil, List.mem_append] at h ⊢
    rcases h with hc | hi
    · rcases List.mem_append.mp
        ((List.take_append_drop 50 st.cache) ▸ hc : x ∈ _) with ht | hd
      · exact Or.inr (Or.inr ht)
      · exact Or.inl hd
    · exact Or.inr (Or.inl hi)

theorem mem_cacheInsertAll_of_mem_base {x : scrobble_entry}
    (batch : List scrobble_entry) {c : List scrobble_entry} (h : x ∈ c) :
    x ∈ cacheInsertAll batch c := by
  induction batch generalizing c with
  | nil => exact h
  | cons b bs ih => exact ih (mem_cacheInsert_of_mem h)

theorem has_ts_append_left {ts : Nat} {l l' : List scrobble_entry}
    (h : has_ts ts l) : has_ts ts (l ++ l') := by
  rcases h with ⟨w, hw, hts⟩
  exact ⟨w, List.mem_append_left _ hw, hts⟩

theorem has_ts_append_right {ts : Nat} {l l' : List scrobble_entry}
    (h : has_ts ts l') : has_ts ts (l ++ l') := by
  rcases h with ⟨w, hw, hts⟩
  exact ⟨w, List.mem_append_right _ hw, hts⟩

theorem covered_coalesced {ts : Nat} {st : as20_state}
    {c : List scrobble_entry} (h : covered ts st c) :
    covered ts (send_scrobbles_coalesced st).1 c := by
  rcases h with h | ⟨w, hw, hts⟩
  · exact Or.inl h
  · exact Or.inr ⟨w, mem_resident_coalesced hw, hts⟩

theorem covered_submit {ts : Nat} {st : as20_state} {c : List scrobble_entry}
    (e : scrobble_entry) (h : covered ts st c) :
    covered ts (do_send_scrobble e st).1 c := by
  apply covered_coalesced
  rcases h with h | ⟨w, hw, hts⟩
  · exact Or.inl h
  · refine Or.inr ⟨w, ?_, hts⟩
    unfold resident at hw ⊢
    rcases List.mem_append.mp hw with hc | hi
    · exact List.mem_append_left _ (mem_cacheInsert_of_mem hc)
    · exact List.mem_append_right _ hi

theorem covered_submit_self {st : as20_state} {c : List scrobble_entry}
    (e : scrobble_entry) : covered e.timestamp (do_send_scrobble e st).1 c := by
  apply covered_coalesced
  exact Or.inr (has_ts_append_left (has_ts_cacheInsert_self e st.cache))

theorem covered_callback {ts : Nat} {st : as20_state} {c : List scrobble_entry}
    {batch : List scrobble_entry} {oc : http_outcome} (h : covered ts st c) :
    covered ts (scrobble_callback st batch oc).1
      (if outcome_success oc then c ++ batch else c) := by
  have restore :
      ∀ fl : Bool,
        covered ts
          ({ cache := cacheInsertAll batch st.cache, fail_flag := fl,
             inflight := st.inflight.erase batch } : as20_state) c := by
    intro fl
    rcases h with h | ⟨w, hw, hts⟩
    · exact Or.inl h
    · rcases List.mem_append.mp hw with hc | hi
      · exact Or.inr (has_ts_append_left
          ⟨w, mem_cacheInsertAll_of_mem_base batch hc, hts⟩)
      · rcases mem_flatten_erase st.inflight batch w hi with h' | h'
        · exact Or.inr (has_ts_append_right (l := cacheInsertAll batch st.cache)
            ⟨w, h', hts⟩)
        · subst hts
          exact Or.inr (has_ts_append_left
            (has_ts_cacheInsertAll_of_mem h'))
  cases oc with
  | transport_error =>
    have h' := restore st.fail_flag
    simpa [scrobble_callback, outcome_success] using h'
  | parse_error =>
    have h' := restore st.fail_flag
    simpa [scrobble_callback, outcome_success] using h'
  | api_response msg err =>
    by_cases hm : msg = ""
    · subst hm
      have hsucc : covered ts
          (send_scrobbles_coalesced
            { st with inflight := st.inflight.erase batch }).1 (c ++ batch) := by
        apply covered_coalesced
        rcases h with h | ⟨w, hw, hts⟩
        · exact Or.inl (has_ts_append_left h)
        · rcases List.mem_append.mp hw with hc | hi
          · exact Or.inr (has_ts_append_left ⟨w, hc, hts⟩)
          · rcases mem_flatten_erase st.inflight batch w hi with h' | h'
            · exact Or.inr (has_ts_append_right (l := st.cache) ⟨w, h', hts⟩)
            · exact Or.inl (has_ts_append_right ⟨w, h', hts⟩)
      simpa [scrobble_callback, outcome_success] using hsucc
    · by_cases he : err = 11 ∨ err = 16
      · have h' := restore st.fail_flag
        simpa [scrobble_callback, outcome_success, hm, he] using h'
      · have h' := restore true
        simpa [scrobble_callback, outcome_success, hm, he] using h'

theorem covered_run (evs : List as20_event) :
    ∀ (st : as20_state) (c : List scrobble_entry) (ts : Nat),
      covered ts st c →
      covered ts (as20_run st c evs).1 (as20_run st c evs).2 := by
  induction evs with
  | nil => intro st c ts h; exact h
  | cons ev evs ih =>
    intro st c ts h
    cases ev with
    | submit e => exact ih _ _ _ (covered_submit e h)
    | complete batch oc =>
      by_cases hmem : batch ∈ st.inflight
      · rw [as20_run, if_pos hmem]
        exact ih _ _ _ (covered_callback h)
      · rw [as20_run, if_neg hmem]
        exact ih _ _ _ h

theorem submitted_covered (evs : List as20_event) :
    ∀ (st : as20_state) (c : List scrobble_entry) (e : scrobble_entry),
      e ∈ submitted_entries evs →
      covered e.timestamp (as20_run st c evs).1 (as20_run st c evs).2 := by
  induction evs with
  | nil => intro st c e h; cases h
  | cons ev evs ih =>
    intro st c e h
    cases ev with
    | submit e' =>
      rcases List.mem_cons.mp h with rfl | h'
      · exact covered_run evs _ _ _ (covered_submit_self e)
      · exact ih _ _ _ h'
    | complete batch oc =>
      by_cases hmem : batch ∈ st.inflight
      · rw [as20_run, if_pos hmem]
        exact ih _ _ _ h
      · rw [as20_run, if_neg hmem]
        exact ih _ _ _ h

theorem coalesced_fail_flag (st : as20_state) :
    (send_scrobbles_coalesced st).1.fail_flag = st.fail_flag := by
  unfold send_scrobbles_coalesced
  split_ifs <;> rfl

theorem callback_fail_flag_mono {st : as20_state}
    (batch : List scrobble_entry) (oc : http_outcome)
    (h : st.fail_flag = true) :
    (scrobble_callback st batch oc).1.fail_flag = true := by
  cases oc with
  | transport_error => simpa [scrobble_callback] using h
  | parse_error => simpa [scrobble_callback] using h
  | api_response msg err =>
    simp only [scrobble_callback]
    split_ifs with h1 h2 <;>
      simp_all [coalesced_fail_flag]

theorem run_fail_flag_mono (evs : List as20_event) :
    ∀ (st : as20_state) (c : List scrobble_entry), st.fail_flag = true →
      (as20_run st c evs).1.fail_flag = true := by
  induction evs with
  | nil => intro st c h; exact h
  | cons ev evs ih =>
    intro st c h
    cases ev with
    | submit e =>
      refine ih _ _ ?_
      simpa [do_send_scrobble, coalesced_fail_flag] using h
    | complete batch oc =>
      by_cases hmem : batch ∈ st.inflight
      · rw [as20_run, if_pos hmem]
        exact ih _ _ (callback_fail_flag_mono batch oc h)
      · rw [as20_run, if_neg hmem]
        exact ih _ _ h

/-- C1 — every entry accepted into the Outbox is, after any sequence of
submissions and completion outcomes, either part of a batch the remote
confirmed as success or still resident (cache or pending batch); and any
extracted batch whose send does not complete with confirmed success is
re-inserted.  Entries are identified by timestamp: an entry that collides
with a resident timestamp is collapsed onto it, exactly the claim's
exception. -/
theorem C1_outbox_no_silent_loss :
    (∀ (evs : List as20_event) (e : scrobble_entry),
      e ∈ submitted_entries evs →
      has_ts e.timestamp (as20_run ⟨[], false, []⟩ [] evs).2 ∨
      has_ts e.timestamp (resident (as20_run ⟨[], false, []⟩ [] evs).1)) ∧
    (∀ (st : as20_state) (batch : List scrobble_entry) (oc : http_outcome)
      (e : scrobble_entry), outcome_success oc = false → e ∈ batch →
      has_ts e.timestamp (scrobble_callback st batch oc).1.cache) := by
  constructor
  · intro evs e h
    exact submitted_covered evs _ _ _ h
  · intro st batch oc e hfail hmem
    cases oc with
    | transport_error =>
      exact has_ts_cacheInsertAll_of_mem hmem
    | parse_error =>
      exact has_ts_cacheInsertAll_of_mem hmem
    | api_response msg err =>
      have hm : ¬ msg = "" := by
        simpa [outcome_success] using hfail
      simp only [scrobble_callback, if_neg hm]
      split_ifs <;> exact has_ts_cacheInsertAll_of_mem hmem

/-- Witness for C1 at a concrete trace and a concrete failed batch. -/
theorem C1_outbox_no_silent_loss_witness :
    (({ timestamp := 5 } : scrobble_entry) ∈
        submitted_entries [.submit { timestamp := 5 }] ∧
      (has_ts 5 (as20_run ⟨[], false, []⟩ [] [.submit { timestamp := 5 }]).2 ∨
       has_ts 5 (resident
         (as20_run ⟨[], false, []⟩ [] [.submit { timestamp := 5 }]).1))) ∧
    (outcome_success .transport_error = false ∧
      ({ timestamp := 5 } : scrobble_entry) ∈ [({ timestamp := 5 } : scrobble_entry)] ∧
      has_ts 5 (scrobble_callback ⟨[], false, [[{ timestamp := 5 }]]⟩
        [{ timestamp := 5 }] .transport_error).1.cache) :=
  ⟨⟨by decide,
    C1_outbox_no_silent_loss.1 [.submit { timestamp := 5 }]
      { timestamp := 5 } (by decide)⟩,
   by decide, by decide,
    C1_outbox_no_silent_loss.2 ⟨[], false, [[{ timestamp := 5 }]]⟩
      [{ timestamp := 5 }] .transport_error { timestamp := 5 }
      (by decide) (by decide)⟩

/-- C2 (counterexample) — a response body that fails to parse does NOT set
the poisoned flag: here a parse failure completes a pending one-entry batch
and the flag is still false afterwards, where the claim demands true. -/
theorem C2_counterexample :
    (scrobble_callback ⟨[], false, [[{ timestamp := 1 }]]⟩
      [{ timestamp := 1 }] .parse_error).1.fail_flag = false := by
  decide

/-- C2 (amended) — if the response body fails to parse, the just-sent batch
is re-inserted into the Outbox and the error is logged, but the poisoned
flag is left unchanged (a parse failure is treated like the recoverable
error codes, per the comment at src/protocols/as20.cpp:355-356), not set
to true. -/
theorem C2_parse_failure_recoverable (st : as20_state)
    (batch : List scrobble_entry) :
    scrobble_callback st batch .parse_error =
      ({ cache := cacheInsertAll batch st.cache, fail_flag := st.fail_flag,
         inflight := st.inflight.erase batch }, .idle,
       ["scrobble fail: json parse error"]) ∧
    ∀ e ∈ batch,
      has_ts e.timestamp (scrobble_callback st batch .parse_error).1.cache := by
  refine ⟨rfl, fun e he => ?_⟩
  exact has_ts_cacheInsertAll_of_mem he

/-- Witness for C2's amended theorem at a concrete state and batch. -/
theorem C2_parse_failure_recoverable_witness :
    ({ timestamp := 3 } : scrobble_entry) ∈ [({ timestamp := 3 } : scrobble_entry)] ∧
    has_ts 3 (scrobble_callback ⟨[], false, [[{ timestamp := 3 }]]⟩
      [{ timestamp := 3 }] .parse_error).1.cache :=
  ⟨by decide,
   (C2_parse_failure_recoverable ⟨[], false, [[{ timestamp := 3 }]]⟩
     [{ timestamp := 3 }]).2 { timestamp := 3 } (by decide)⟩

/-- C4 — the poisoned flag, once true, stays true across every further
event, and while it is set a scrobble submission or drain attempt throws
(`.threw`): no request is dispatched (a submission still performs its cache
insertion first, see C10). -/
theorem C4_poisoned_is_terminal :
    (∀ (evs : List as20_event) (st : as20_state) (c : List scrobble_entry),
      st.fail_flag = true → (as20_run st c evs).1.fail_flag = true) ∧
    (∀ (st : as20_state) (e : scrobble_entry), st.fail_flag = true →
      do_send_scrobble e st =
        ({ st with cache := cacheInsert e st.cache }, .threw)) ∧
    (∀ st : as20_state, st.fail_flag = true →
      send_scrobbles_coalesced st = (st, .threw)) ∧
    (∀ (st : as20_state) (s : scrobble_entry), st.fail_flag = true →
      do_send_now_playing st s = (st, .threw)) := by
  refine ⟨fun evs st c h => run_fail_flag_mono evs st c h,
    fun st e h => ?_, fun st h => ?_, fun st s h => ?_⟩
  · simp [do_send_scrobble, send_scrobbles_coalesced, h]
  · simp [send_scrobbles_coalesced, h]
  · simp [do_send_now_playing, h]

/-- Witness for C4 at a concrete poisoned state. -/
theorem C4_poisoned_is_terminal_witness :
    ((⟨[], true, []⟩ : as20_state).fail_flag = true ∧
      (as20_run ⟨[], true, []⟩ [] [.submit { timestamp := 2 }]).1.fail_flag = true) ∧
    do_send_scrobble { timestamp := 2 } ⟨[], true, []⟩ =
      (⟨[{ timestamp := 2 }], true, []⟩, .threw) ∧
    send_scrobbles_coalesced ⟨[], true, []⟩ = (⟨[], true, []⟩, .threw) ∧
    do_send_now_playing ⟨[], true, []⟩ { timestamp := 2 } =
      (⟨[], true, []⟩, .threw) := by
  refine ⟨⟨rfl, C4_poisoned_is_terminal.1 [.submit { timestamp := 2 }]
      ⟨[], true, []⟩ [] rfl⟩, ?_, ?_, ?_⟩
  · have h := C4_poisoned_is_terminal.2.1 ⟨[], true, []⟩ { timestamp := 2 } rfl
    simpa [cacheInsert] using h
  · exact C4_poisoned_is_terminal.2.2.1 ⟨[], true, []⟩ rfl
  · exact C4_poisoned_is_terminal.2.2.2 ⟨[], true, []⟩ { timestamp := 2 } rfl

theorem resident_coalesced_perm (st : as20_state) :
    List.Perm (resident (send_scrobbles_coalesced st).1) (resident st) := by
  unfold send_scrobbles_coalesced
  split_ifs with h1 h2
  · exact List.Perm.refl _
  · exact List.Perm.refl _
  · unfold resident
    simp only [List.flatten_append, List.flatten_cons, List.flatten_nil,
      List.append_nil]
    have s1 : List.Perm
        (st.cache.drop 50 ++ (st.inflight.flatten ++ st.cache.take 50))
        (st.cache.drop 50 ++ (st.cache.take 50 ++ st.inflight.flatten)) :=
      List.Perm.append_left _ List.perm_append_comm
    have s3 : List.Perm
        ((st.cache.drop 50 ++ st.cache.take 50) ++ st.inflight.flatten)
        (st.cache ++ st.inflight.flatten) := by
      have h := List.Perm.append_right st.inflight.flatten
        (@List.perm_append_comm _ (st.cache.drop 50) (st.cache.take 50))
      rwa [List.take_append_drop] at h
    refine s1.trans ?_
    rw [← List.append_assoc]
    exact s3

theorem scrobble_callback_apifail_eq (st : as20_state)
    (batch : List scrobble_entry) (msg : String) (err : Int) (hm : msg ≠ "") :
    scrobble_callback st batch (.api_response msg err) =
      (⟨cacheInsertAll batch st.cache,
        (if err = 11 ∨ err = 16 then st.fail_flag else true),
        st.inflight.erase batch⟩, .idle,
       ["scrobble fail: api returned an error: " ++ msg]) := by
  simp only [scrobble_callback, scrobble_fail_log, if_neg hm]
  split_ifs <;> rfl

theorem scrobble_callback_success_eq (st : as20_state)
    (batch : List scrobble_entry) (err : Int) :
    scrobble_callback st batch (.api_response "" err) =
      ((send_scrobbles_coalesced
          { st with inflight := st.inflight.erase batch }).1,
       (send_scrobbles_coalesced
          { st with inflight := st.inflight.erase batch }).2, []) := rfl

/-- C3 — classification of a parsed scrobble-batch envelope: a non-empty
message with remote error code 11 or 16 re-inserts the batch and leaves
the poisoned flag as it was (false stays false); a non-empty message with
any other code re-inserts the batch and sets the flag; an empty message is
a success, the batch is removed permanently (the instance afterwards holds
exactly what it held besides the completed batch, reshuffled between cache
and the next in-flight batch) and the flag is untouched. -/
theorem C3_response_classification (st : as20_state)
    (batch : List scrobble_entry) (msg : String) (err : Int) :
    (msg ≠ "" → (err = 11 ∨ err = 16) →
      (scrobble_callback st batch (.api_response msg err)).1.fail_flag =
        st.fail_flag ∧
      ∀ e ∈ batch, has_ts e.timestamp
        (scrobble_callback st batch (.api_response msg err)).1.cache) ∧
    (msg ≠ "" → ¬(err = 11 ∨ err = 16) →
      (scrobble_callback st batch (.api_response msg err)).1.fail_flag =
        true ∧
      ∀ e ∈ batch, has_ts e.timestamp
        (scrobble_callback st batch (.api_response msg err)).1.cache) ∧
    ((scrobble_callback st batch (.api_response "" err)).1.fail_flag =
        st.fail_flag ∧
     List.Perm
       (resident (scrobble_callback st batch (.api_response "" err)).1)
       (st.cache ++ (st.inflight.erase batch).flatten)) := by
  refine ⟨fun hm he => ?_, fun hm he => ?_, ?_, ?_⟩
  · rw [scrobble_callback_apifail_eq st batch msg err hm]
    exact ⟨by simp [he], fun e hmem => has_ts_cacheInsertAll_of_mem hmem⟩
  · rw [scrobble_callback_apifail_eq st batch msg err hm]
    exact ⟨by simp [he], fun e hmem => has_ts_cacheInsertAll_of_mem hmem⟩
  · rw [scrobble_callback_success_eq]
    exact coalesced_fail_flag _
  · rw [scrobble_callback_success_eq]
    exact resident_coalesced_perm _

/-- Witness for C3 at concrete envelopes for the three cases. -/
theorem C3_response_classification_witness :
    (("offline" : String) ≠ "" ∧ ((11 : Int) = 11 ∨ (11 : Int) = 16) ∧
      (scrobble_callback ⟨[], false, [[{ timestamp := 6 }]]⟩
        [{ timestamp := 6 }] (.api_response "offline" 11)).1.fail_flag =
        false) ∧
    (("bad session" : String) ≠ "" ∧ ¬((9 : Int) = 11 ∨ (9 : Int) = 16) ∧
      (scrobble_callback ⟨[], false, [[{ timestamp := 6 }]]⟩
        [{ timestamp := 6 }] (.api_response "bad session" 9)).1.fail_flag =
        true) ∧
    (scrobble_callback ⟨[], false, [[{ timestamp := 6 }]]⟩
      [{ timestamp := 6 }] (.api_response "" 0)).1.fail_flag = false := by
  refine ⟨⟨by decide, by decide, ?_⟩, ⟨by decide, by decide, ?_⟩, ?_⟩
  · exact (C3_response_classification ⟨[], false, [[{ timestamp := 6 }]]⟩
      [{ timestamp := 6 }] "offline" 11).1 (by decide) (by decide) |>.1
  · exact ((C3_response_classification ⟨[], false, [[{ timestamp := 6 }]]⟩
      [{ timestamp := 6 }] "bad session" 9).2.1 (by decide) (by decide)).1
  · exact (C3_response_classification ⟨[], false, [[{ timestamp := 6 }]]⟩
      [{ timestamp := 6 }] "" 0).2.2.1

set_option maxHeartbeats 1000000 in
theorem timestamp_key_fresh : ∀ i < 50, ∀ j < 50, i ≠ j →
    ("timestamp" ++ ("[" ++ Nat.repr i ++ "]")) ∉ iteration_keys j := by
  decide

theorem params_lookup_insert_self (k v : String) :
    ∀ m : List (String × String),
      params_lookup k (params_insert k v m) = some v := by
  intro m
  induction m with
  | nil => simp [params_insert, params_lookup]
  | cons p ps ih =>
    obtain ⟨q, w⟩ := p
    by_cases h1 : k < q
    · simp [params_insert, h1, params_lookup]
    · by_cases h2 : q < k
      · simp [params_insert, h1, h2, params_lookup, (ne_of_gt h2 : k ≠ q), ih]
      · simp [params_insert, h1, h2, params_lookup]

theorem params_lookup_insert_ne (k q v : String) (h : k ≠ q) :
    ∀ m : List (String × String),
      params_lookup k (params_insert q v m) = params_lookup k m := by
  intro m
  induction m with
  | nil => simp [params_insert, params_lookup, h]
  | cons p ps ih =>
    obtain ⟨r, w⟩ := p
    by_cases h1 : q < r
    · simp [params_insert, h1, params_lookup, h]
    · by_cases h2 : r < q
      · simp [params_insert, h1, h2, params_lookup, ih]
      · have hqr : q = r := le_antisymm (not_lt.mp h2) (not_lt.mp h1)
        subst hqr
        simp [params_insert, h1, h2, params_lookup, h]

theorem params_lookup_add_tag (key value field : String) (h : key ≠ field)
    (m : List (String × String)) :
    params_lookup key (add_tag value field m) = params_lookup key m := by
  unfold add_tag
  split_ifs
  · rfl
  · exact params_lookup_insert_ne key field value h m

theorem params_lookup_add_track (key : String) (s : scrobble_entry)
    (sfx : String)
    (h1 : key ≠ "artist" ++ sfx) (h2 : key ≠ "track" ++ sfx)
    (h3 : key ≠ "album" ++ sfx) (h4 : key ≠ "trackNumber" ++ sfx)
    (h5 : key ≠ "mbid" ++ sfx) (h6 : key ≠ "albumArtist" ++ sfx)
    (h7 : key ≠ "duration" ++ sfx) (m : List (String × String)) :
    params_lookup key (add_track s sfx m) = params_lookup key m := by
  unfold add_track
  rw [params_lookup_insert_ne _ _ _ h7, params_lookup_add_tag _ _ _ h6,
    params_lookup_add_tag _ _ _ h5, params_lookup_add_tag _ _ _ h4,
    params_lookup_add_tag _ _ _ h3, params_lookup_add_tag _ _ _ h2,
    params_lookup_add_tag _ _ _ h1]

theorem params_lookup_step_fresh (key : String) (p : Nat × scrobble_entry)
    (m : List (String × String)) (h : key ∉ iteration_keys p.1) :
    params_lookup key (scrobble_loop_step m p) = params_lookup key m := by
  simp only [iteration_keys, List.mem_cons, List.not_mem_nil, or_false,
    not_or] at h
  obtain ⟨h1, h2, h3, h4, h5, h6, h7, h8⟩ := h
  simp only [scrobble_loop_step]
  rw [params_lookup_insert_ne _ _ _ h8,
    params_lookup_add_track _ _ _ h1 h2 h3 h4 h5 h6 h7]

theorem params_lookup_step_self (p : Nat × scrobble_entry)
    (m : List (String × String)) :
    params_lookup ("timestamp" ++ ("[" ++ Nat.repr p.1 ++ "]"))
      (scrobble_loop_step m p) = some (Nat.repr p.2.timestamp) := by
  simp only [scrobble_loop_step]
  exact params_lookup_insert_self _ _ _

theorem params_lookup_foldl_fresh (key : String) :
    ∀ (l : List (Nat × scrobble_entry)) (m : List (String × String)),
      (∀ p ∈ l, key ∉ iteration_keys p.1) →
      params_lookup key (l.foldl scrobble_loop_step m) =
        params_lookup key m := by
  intro l
  induction l with
  | nil => intro m _; rfl
  | cons p ps ih =>
    intro m h
    rw [List.foldl_cons, ih _ (fun q hq => h q (List.mem_cons_of_mem p hq)),
      params_lookup_step_fresh key p m (h p (List.mem_cons_self p ps))]

theorem enumFrom_fst_bounds :
    ∀ (l : List scrobble_entry) (n : Nat) (p : Nat × scrobble_entry),
      p ∈ List.enumFrom n l → n ≤ p.1 ∧ p.1 < n + l.length := by
  intro l
  induction l with
  | nil => intro n p h; cases h
  | cons x xs ih =>
    intro n p h
    simp only [List.enumFrom] at h
    rcases List.mem_cons.mp h with rfl | h'
    · simp
    · have hb := ih (n + 1) p h'
      simp only [List.length_cons]
      omega

theorem lookup_timestamp_loop :
    ∀ (batch : List scrobble_entry) (k : Nat) (m : List (String × String))
      (i : Nat) (hi : i < batch.length), k + batch.length ≤ 50 →
      params_lookup ("timestamp" ++ ("[" ++ Nat.repr (k + i) ++ "]"))
        ((List.enumFrom k batch).foldl scrobble_loop_step m) =
      some (Nat.repr (batch.get ⟨i, hi⟩).timestamp) := by
  intro batch
  induction batch with
  | nil =>
    intro k m i hi
    exact absurd hi (by simp)
  | cons x xs ih =>
    intro k m i hi hb
    simp only [List.enumFrom, List.foldl_cons]
    simp only [List.length_cons] at hb hi
    cases i with
    | zero =>
      have hfresh : ∀ p ∈ List.enumFrom (k + 1) xs,
          ("timestamp" ++ ("[" ++ Nat.repr (k + 0) ++ "]")) ∉
            iteration_keys p.1 := by
        intro p hp
        have hbd := enumFrom_fst_bounds xs (k + 1) p hp
        have hk : k + 0 = k := Nat.add_zero k
        rw [hk]
        exact timestamp_key_fresh k (by omega) p.1 (by omega) (by omega)
      rw [params_lookup_foldl_fresh _ _ _ hfresh]
      rw [Nat.add_zero]
      exact params_lookup_step_self (k, x) m
    | succ j =>
      have hrw : k + (j + 1) = (k + 1) + j := by omega
      rw [hrw]
      have h := ih (k + 1) (scrobble_loop_step m (k, x)) j
        (by omega) (by omega)
      simpa using h

theorem lookup_timestamp_batch (batch : List scrobble_entry)
    (api_key sk : String) (hlen : batch.length ≤ 50) (i : Nat)
    (hi : i < batch.length) :
    params_lookup ("timestamp" ++ ("[" ++ Nat.repr i ++ "]"))
      (scrobble_request_params api_key sk batch) =
    some (Nat.repr (batch.get ⟨i, hi⟩).timestamp) := by
  have h := lookup_timestamp_loop batch 0
    (params_insert "sk" sk (params_insert "api_key" api_key
      (params_insert "method" "track.scrobble" []))) i hi (by omega)
  simpa [scrobble_request_params, List.enum] using h

theorem cacheSorted_iff_chain (l : List scrobble_entry) :
    cacheSorted l = true ↔
      List.Chain' (fun a b : scrobble_entry => a.timestamp < b.timestamp) l := by
  induction l with
  | nil => simp [cacheSorted]
  | cons x xs ih =>
    cases xs with
    | nil => simp [cacheSorted]
    | cons y ys =>
      simp only [cacheSorted, Bool.and_eq_true, decide_eq_true_eq,
        List.chain'_cons, ih]

theorem cacheSorted_iff_pairwise (l : List scrobble_entry) :
    cacheSorted l = true ↔
      l.Pairwise (fun a b => a.timestamp < b.timestamp) := by
  haveI : IsTrans scrobble_entry (fun a b => a.timestamp < b.timestamp) :=
    ⟨fun _ _ _ h1 h2 => Nat.lt_trans h1 h2⟩
  rw [cacheSorted_iff_chain, List.chain'_iff_pairwise]

theorem drain_chain_eq_chunks :
    ∀ (fuel : Nat) (st : as20_state) (b : List scrobble_entry),
      st.fail_flag = false → st.cache.length ≤ 50 * fuel →
      drain_chain fuel st b = b.length :: chunk_sizes st.cache.length := by
  intro fuel
  induction fuel with
  | zero =>
    intro st b _ hl
    have h0 : st.cache.length = 0 := by omega
    rw [drain_chain, h0, chunk_sizes]
    simp
  | succ n ih =>
    intro st b hf hl
    rw [drain_chain, scrobble_callback_success_eq]
    by_cases hc : st.cache = []
    · have hco : send_scrobbles_coalesced
          { st with inflight := st.inflight.erase b } =
          ({ st with inflight := st.inflight.erase b }, .idle) := by
        simp [send_scrobbles_coalesced, hf, hc]
      rw [hco]
      have hl0 : st.cache.length = 0 := by simp [hc]
      rw [hl0, chunk_sizes]
      simp
    · have hco : send_scrobbles_coalesced
          { st with inflight := st.inflight.erase b } =
          (⟨st.cache.drop 50, st.fail_flag,
            (st.inflight.erase b) ++ [st.cache.take 50]⟩,
           .requested (st.cache.take 50)) := by
        simp [send_scrobbles_coalesced, hf, hc]
      rw [hco]
      show b.length :: drain_chain n
          ⟨st.cache.drop 50, st.fail_flag,
            (st.inflight.erase b) ++ [st.cache.take 50]⟩
          (st.cache.take 50) = b.length :: chunk_sizes st.cache.length
      have hrec := ih ⟨st.cache.drop 50, st.fail_flag,
          (st.inflight.erase b) ++ [st.cache.take 50]⟩
        (st.cache.take 50) hf (by simp [List.length_drop]; omega)
      rw [hrec]
      have hne0 : st.cache.length ≠ 0 := by
        simpa [List.length_eq_zero] using hc
      conv_rhs => rw [chunk_sizes]
      rw [if_neg hne0]
      simp [List.length_take, List.length_drop]

/-- C5 — batch extraction and the drain cycle: an extracted batch is the
first `min 50 n` (hence at most 50) entries of the timestamp-ordered
cache, every batch entry is older than every remaining entry, batch keys
carry the positional suffix (`timestamp[i]` maps to the `i`-th entry's
timestamp), and from 120 pending entries a fully successful drain cycle
dispatches exactly three consecutive requests of sizes 50, 50 and 20. -/
theorem C5_batch_extraction (cache : List scrobble_entry)
    (hs : cacheSorted cache = true) :
    ((cache.take 50).length = min 50 cache.length ∧
      (cache.take 50).length ≤ 50) ∧
    (cache ≠ [] → send_scrobbles_coalesced ⟨cache, false, []⟩ =
      (⟨cache.drop 50, false, [cache.take 50]⟩,
       .requested (cache.take 50))) ∧
    cacheSorted (cache.take 50) = true ∧
    (∀ x ∈ cache.take 50, ∀ y ∈ cache.drop 50, x.timestamp < y.timestamp) ∧
    (∀ (api_key sk : String) (i : Nat) (hi : i < (cache.take 50).length),
      params_lookup ("timestamp" ++ ("[" ++ Nat.repr i ++ "]"))
        (scrobble_request_params api_key sk (cache.take 50)) =
      some (Nat.repr ((cache.take 50).get ⟨i, hi⟩).timestamp)) ∧
    (cache.length = 120 →
      drain_cycle_sizes 3 ⟨cache, false, []⟩ = [50, 50, 20]) := by
  have hp : cache.Pairwise (fun a b => a.timestamp < b.timestamp) :=
    (cacheSorted_iff_pairwise cache).mp hs
  have hsplit : (cache.take 50 ++ cache.drop 50).Pairwise
      (fun a b => a.timestamp < b.timestamp) := by
    rw [List.take_append_drop]
    exact hp
  refine ⟨⟨List.length_take 50 cache, ?_⟩, fun hne => ?_, ?_, ?_, ?_, fun h120 => ?_⟩
  · rw [List.length_take]
    omega
  · simp [send_scrobbles_coalesced, hne]
  · exact (cacheSorted_iff_pairwise _).mpr (List.pairwise_append.mp hsplit).1
  · exact (List.pairwise_append.mp hsplit).2.2
  · intro api_key sk i hi
    exact lookup_timestamp_batch (cache.take 50) api_key sk
      (by rw [List.length_take]; omega) i hi
  · have hne : cache ≠ [] := by
      intro h0
      rw [h0] at h120
      simp at h120
    rw [drain_cycle_sizes]
    have hco : send_scrobbles_coalesced ⟨cache, false, []⟩ =
        (⟨cache.drop 50, false, [cache.take 50]⟩,
         .requested (cache.take 50)) := by
      simp [send_scrobbles_coalesced, hne]
    rw [hco]
    show drain_chain 3 ⟨cache.drop 50, false, [cache.take 50]⟩
        (cache.take 50) = [50, 50, 20]
    have hrec := drain_chain_eq_chunks 3
      ⟨cache.drop 50, false, [cache.take 50]⟩ (cache.take 50) rfl
      (by simp [List.length_drop, h120])
    rw [hrec]
    have e0 : chunk_sizes 0 = [] := by rw [chunk_sizes]; norm_num
    have e20 : chunk_sizes 20 = [20] := by rw [chunk_sizes, e0]; norm_num
    have e70 : chunk_sizes 70 = [50, 20] := by rw [chunk_sizes]; norm_num [e20]
    simp only [List.length_take, List.length_drop, h120]
    norm_num [e70]

/-- Witness for C5 on a concrete sorted 120-entry cache. -/
theorem C5_batch_extraction_witness :
    cacheSorted sample_cache = true ∧ sample_cache.length = 120 ∧
    drain_cycle_sizes 3 ⟨sample_cache, false, []⟩ = [50, 50, 20] :=
  ⟨by decide, by decide,
   (C5_batch_extraction sample_cache (by decide)).2.2.2.2.2 (by decide)⟩

/-- C6 (counterexample) — the claim's middle example is wrong on the code:
a 300-second track heard 239 seconds IS scrobbled, because the threshold is
min(240, 300 / 2) = 150 < 239, not 240. -/
theorem C6_counterexample :
    do_check_preconditions { duration := 300, elapsed := 239 } = true := by
  decide

/-- C6 (amended) — the precondition holds exactly when duration > 30 and
elapsed > min(240, duration / 2); a 20-second track is never scrobbled, a
300-second track heard 239 seconds IS scrobbled (threshold 150), heard 241
seconds is scrobbled, and a 40-second track heard 21 seconds is scrobbled. -/
theorem C6_scrobble_preconditions (s : scrobble_entry) :
    (do_check_preconditions s = true ↔
      30 < s.duration ∧ min 240 (s.duration / 2) < s.elapsed) ∧
    (∀ el : Nat,
      do_check_preconditions { duration := 20, elapsed := el } = false) ∧
    do_check_preconditions { duration := 300, elapsed := 239 } = true ∧
    do_check_preconditions { duration := 300, elapsed := 241 } = true ∧
    do_check_preconditions { duration := 40, elapsed := 21 } = true := by
  refine ⟨?_, fun el => rfl, by decide, by decide, by decide⟩
  simp [do_check_preconditions]

theorem mem_params_insert (k v : String) (m : List (String × String))
    (x : String × String) (hx : x ∈ params_insert k v m) :
    x = (k, v) ∨ x ∈ m := by
  induction m with
  | nil => simpa [params_insert] using hx
  | cons p ps ih =>
    obtain ⟨q, w⟩ := p
    simp only [params_insert] at hx
    split_ifs at hx with h1 h2
    · rcases List.mem_cons.mp hx with rfl | h'
      · exact Or.inl rfl
      · exact Or.inr h'
    · rcases List.mem_cons.mp hx with rfl | h'
      · exact Or.inr (List.mem_cons_self _ _)
      · rcases ih h' with h'' | h''
        · exact Or.inl h''
        · exact Or.inr (List.mem_cons_of_mem _ h'')
    · rcases List.mem_cons.mp hx with rfl | h'
      · exact Or.inl rfl
      · exact Or.inr (List.mem_cons_of_mem _ h')

theorem params_sorted_iff_chain (m : List (String × String)) :
    params_sorted m = true ↔
      List.Chain' (fun p q : String × String => p.1 < q.1) m := by
  induction m with
  | nil => simp [params_sorted]
  | cons p ps ih =>
    cases ps with
    | nil => simp [params_sorted]
    | cons q qs =>
      simp only [params_sorted, Bool.and_eq_true, decide_eq_true_eq,
        List.chain'_cons, ih]

theorem params_sorted_iff_pairwise (m : List (String × String)) :
    params_sorted m = true ↔
      m.Pairwise (fun p q => p.1 < q.1) := by
  haveI : IsTrans (String × String) (fun p q => p.1 < q.1) :=
    ⟨fun _ _ _ h1 h2 => lt_trans h1 h2⟩
  rw [params_sorted_iff_chain, List.chain'_iff_pairwise]

theorem params_insert_pairwise (k v : String) :
    ∀ m : List (String × String),
      m.Pairwise (fun p q : String × String => p.1 < q.1) →
      (params_insert k v m).Pairwise (fun p q : String × String => p.1 < q.1) := by
  intro m
  induction m with
  | nil => intro _; simp [params_insert]
  | cons p ps ih =>
    obtain ⟨q, w⟩ := p
    intro h
    obtain ⟨hq, ht⟩ := List.pairwise_cons.mp h
    simp only [params_insert]
    split_ifs with h1 h2
    · refine List.Pairwise.cons ?_ h
      intro x hx
      rcases List.mem_cons.mp hx with rfl | h'
      · exact h1
      · exact lt_trans h1 (hq x h')
    · refine List.Pairwise.cons ?_ (ih ht)
      intro x hx
      rcases mem_params_insert _ _ _ _ hx with rfl | h'
      · exact h2
      · exact hq x h'
    · have hkq : k = q := le_antisymm (not_lt.mp h2) (not_lt.mp h1)
      refine List.Pairwise.cons ?_ ht
      intro x hx
      rw [hkq]
      exact hq x hx

theorem params_insert_perm_fresh (k v : String) :
    ∀ m : List (String × String), k ∉ m.map Prod.fst →
      List.Perm (params_insert k v m) ((k, v) :: m) := by
  intro m
  induction m with
  | nil => intro _; exact List.Perm.refl _
  | cons p ps ih =>
    obtain ⟨q, w⟩ := p
    intro h
    simp only [List.map_cons, List.mem_cons, not_or] at h
    obtain ⟨hkq, hps⟩ := h
    simp only [params_insert]
    split_ifs with h1 h2
    · exact List.Perm.refl _
    · exact ((ih hps).cons (q, w)).trans (List.Perm.swap (k, v) (q, w) ps)
    · exact absurd (le_antisymm (not_lt.mp h2) (not_lt.mp h1)) hkq

theorem params_foldl_perm :
    ∀ (kvs m : List (String × String)),
      (m.map Prod.fst ++ kvs.map Prod.fst).Nodup →
      List.Perm
        (kvs.foldl (fun acc p => params_insert p.1 p.2 acc) m) (m ++ kvs) := by
  intro kvs
  induction kvs with
  | nil =>
    intro m _
    simp only [List.foldl_nil, List.append_nil]
    exact List.Perm.refl m
  | cons p ps ih =>
    intro m hnd
    have hfresh : p.1 ∉ m.map Prod.fst := by
      intro hmem
      have hd := List.disjoint_of_nodup_append hnd
      exact hd hmem (by simp)
    have hperm1 : List.Perm (params_insert p.1 p.2 m) ((p.1, p.2) :: m) :=
      params_insert_perm_fresh p.1 p.2 m hfresh
    have hnd2 : ((params_insert p.1 p.2 m).map Prod.fst ++
        ps.map Prod.fst).Nodup := by
      have hmapperm : List.Perm ((params_insert p.1 p.2 m).map Prod.fst)
          (p.1 :: m.map Prod.fst) := by
        simpa using hperm1.map Prod.fst
      have hbig : List.Perm
          ((params_insert p.1 p.2 m).map Prod.fst ++ ps.map Prod.fst)
          ((p.1 :: m.map Prod.fst) ++ ps.map Prod.fst) :=
        hmapperm.append_right _
      have hbig2 : List.Perm
          (m.map Prod.fst ++ ((p :: ps).map Prod.fst))
          ((p.1 :: m.map Prod.fst) ++ ps.map Prod.fst) := by
        simp only [List.map_cons, List.cons_append]
        exact List.perm_middle
      exact (hbig.nodup_iff).mpr ((hbig2.nodup_iff).mp hnd)
    have hrec := ih (params_insert p.1 p.2 m) hnd2
    rw [List.foldl_cons]
    refine hrec.trans ?_
    refine (hperm1.append_right ps).trans ?_
    have : ((p.1, p.2) :: m) ++ ps = (p.1, p.2) :: (m ++ ps) := by
      simp
    rw [this]
    exact List.perm_middle.symm

theorem params_build_pairwise :
    ∀ (kvs m : List (String × String)),
      m.Pairwise (fun p q : String × String => p.1 < q.1) →
      (kvs.foldl (fun acc p => params_insert p.1 p.2 acc) m).Pairwise
        (fun p q : String × String => p.1 < q.1) := by
  intro kvs
  induction kvs with
  | nil => intro m h; exact h
  | cons p ps ih =>
    intro m h
    rw [List.foldl_cons]
    exact ih _ (params_insert_pairwise p.1 p.2 m h)

theorem params_sorted_perm_eq :
    ∀ l₁ l₂ : List (String × String), List.Perm l₁ l₂ →
      l₁.Pairwise (fun p q : String × String => p.1 < q.1) →
      l₂.Pairwise (fun p q : String × String => p.1 < q.1) →
      l₁ = l₂ := by
  intro l₁
  induction l₁ with
  | nil =>
    intro l₂ hperm _ _
    exact hperm.nil_eq
  | cons p t₁ ih =>
    intro l₂ hperm hs₁ hs₂
    cases l₂ with
    | nil => exact absurd hperm.symm.nil_eq (by simp)
    | cons q t₂ =>
      have hpq : p = q := by
        by_contra hne
        have hp2 : p ∈ q :: t₂ := hperm.mem_iff.mp (List.mem_cons_self p t₁)
        have hq1 : q ∈ p :: t₁ :=
          hperm.symm.mem_iff.mp (List.mem_cons_self q t₂)
        have hp2' : p ∈ t₂ := by
          rcases List.mem_cons.mp hp2 with h | h
          · exact absurd h hne
          · exact h
        have hq1' : q ∈ t₁ := by
          rcases List.mem_cons.mp hq1 with h | h
          · exact absurd h.symm hne
          · exact h
        have h1 : p.1 < q.1 := (List.pairwise_cons.mp hs₁).1 q hq1'
        have h2 : q.1 < p.1 := (List.pairwise_cons.mp hs₂).1 p hp2'
        exact absurd h1 (lt_asymm h2)
      subst hpq
      rw [ih t₂ hperm.cons_inv (List.pairwise_cons.mp hs₁).2
        (List.pairwise_cons.mp hs₂).2]

/-- C7 — the request signature is the lowercase-hex digest of the key/value
concatenation in ascending key order followed by the secret: the built
parameter map is key-sorted and holds exactly the inserted pairs, two
insertion orders of the same key/value set build the same map and hence the
same signature, and `form` appends `format=json` and `api_sig` after the
digest is computed over the map alone (which never contains them). -/
theorem C7_signing (md5 : String → List Nat) (secret : String)
    (kvs₁ kvs₂ : List (String × String)) (hperm : List.Perm kvs₁ kvs₂)
    (hnd : (kvs₁.map Prod.fst).Nodup) :
    params_build kvs₁ = params_build kvs₂ ∧
    sign md5 (params_build kvs₁) secret =
      sign md5 (params_build kvs₂) secret ∧
    params_sorted (params_build kvs₁) = true ∧
    List.Perm (params_build kvs₁) kvs₁ ∧
    sign md5 (params_build kvs₁) secret =
      to_hex_string (md5 (sign_input (params_build kvs₁) secret)) ∧
    (∀ params : List (String × String),
      form md5 params secret =
        (params.foldl
          (fun s p => s ++ "&" ++ urlencode p.1 ++ "=" ++ urlencode p.2) "")
          ++ "&format=json" ++ "&api_sig=" ++ sign md5 params secret) := by
  have hnd₂ : (kvs₂.map Prod.fst).Nodup :=
    ((hperm.map Prod.fst).nodup_iff).mp hnd
  have hb₁ : List.Perm (params_build kvs₁) kvs₁ := by
    have h := params_foldl_perm kvs₁ [] (by simpa using hnd)
    simpa [params_build] using h
  have hb₂ : List.Perm (params_build kvs₂) kvs₂ := by
    have h := params_foldl_perm kvs₂ [] (by simpa using hnd₂)
    simpa [params_build] using h
  have hs₁ : (params_build kvs₁).Pairwise (fun p q => p.1 < q.1) :=
    params_build_pairwise kvs₁ [] (by simp)
  have hs₂ : (params_build kvs₂).Pairwise (fun p q => p.1 < q.1) :=
    params_build_pairwise kvs₂ [] (by simp)
  have heq : params_build kvs₁ = params_build kvs₂ :=
    params_sorted_perm_eq _ _ (hb₁.trans (hperm.trans hb₂.symm)) hs₁ hs₂
  exact ⟨heq, by rw [heq], (params_sorted_iff_pairwise _).mpr hs₁, hb₁, rfl,
    fun params => rfl⟩

/-- Witness for C7 on two insertion orders of the same two parameters. -/
theorem C7_signing_witness :
    List.Perm ([("b", "2"), ("a", "1")] : List (String × String))
      [("a", "1"), ("b", "2")] ∧
    (([("b", "2"), ("a", "1")] : List (String × String)).map Prod.fst).Nodup ∧
    params_build [("b", "2"), ("a", "1")] =
      params_build [("a", "1"), ("b", "2")] ∧
    sign (fun _ => []) (params_build [("b", "2"), ("a", "1")]) "s" =
      sign (fun _ => []) (params_build [("a", "1"), ("b", "2")]) "s" := by
  have hp : List.Perm ([("b", "2"), ("a", "1")] : List (String × String))
      [("a", "1"), ("b", "2")] := List.Perm.swap ("a", "1") ("b", "2") []
  refine ⟨hp, by decide, ?_, ?_⟩
  · exact (C7_signing (fun _ => []) "s" _ _ hp (by decide)).1
  · exact (C7_signing (fun _ => []) "s" _ _ hp (by decide)).2.1

/-- C8 (code bug) — at daemon startup into a track already in progress, the
code calls `last.set_elapsed(status.elapsed_time())` and then
`last.new_song(song)`, but `new_song` zeroes the elapsed accumulator, so
the snapshot's elapsed value is discarded: the tracker resumes at 0, not at
the snapshot's progress as the claim (and the evident purpose of the dead
`set_elapsed` call, its only call site) says. -/
theorem C8_startup_resume_loses_elapsed (s : Nat) (e now : Int) :
    (run_scrobblers_startup (some s) true e now).elapsed = 0 := rfl

/-- C9 — a now-playing notification is fire-and-forget: the completion
callback captures nothing and leaves the instance state untouched for every
outcome; a transport error or a non-2xx status only produces a log line; a
non-poisoned dispatch sends one single-track request and changes nothing. -/
theorem C9_now_playing_fire_and_forget (st : as20_state) (s : scrobble_entry)
    (code : Nat) (hcode : code < 200 ∨ code > 299) :
    (∀ oc, (now_playing_complete st oc).1 = st) ∧
    (now_playing_complete st .transport_error).2 =
      ["request error when sending now playing"] ∧
    (now_playing_complete st (.status code)).2 =
      ["now playing send failed, status: " ++ Nat.repr code] ∧
    (st.fail_flag = false → do_send_now_playing st s = (st, .requested [s])) := by
  refine ⟨fun oc => rfl, rfl, ?_, fun h => by simp [do_send_now_playing, h]⟩
  simp [now_playing_complete, now_playing_callback, hcode]

/-- Witness for C9 at status 500 on a fresh instance. -/
theorem C9_now_playing_fire_and_forget_witness :
    (500 < 200 ∨ 500 > 299) ∧
    (now_playing_complete ⟨[], false, []⟩ (.status 500)).2 =
      ["now playing send failed, status: " ++ Nat.repr 500] ∧
    do_send_now_playing ⟨[], false, []⟩ { timestamp := 1 } =
      (⟨[], false, []⟩, .requested [{ timestamp := 1 }]) :=
  ⟨by decide,
   (C9_now_playing_fire_and_forget ⟨[], false, []⟩ { timestamp := 1 } 500
     (by decide)).2.2.1,
   (C9_now_playing_fire_and_forget ⟨[], false, []⟩ { timestamp := 1 } 500
     (by decide)).2.2.2 rfl⟩

/-- C10 — a submission to a poisoned instance performs its cache insertion
first and only then throws: the fail-fast error does not undo the
insertion, the entry's timestamp stays resident, and with a non-empty
store path the destructor persists the cache (entry included) at
shutdown. -/
theorem C10_poisoned_submit_still_cached (st : as20_state)
    (e : scrobble_entry) (path : String) (hflag : st.fail_flag = true)
    (hpath : path ≠ "") :
    do_send_scrobble e st =
      ({ st with cache := cacheInsert e st.cache }, .threw) ∧
    has_ts e.timestamp (do_send_scrobble e st).1.cache ∧
    ∃ l, as20_shutdown path (do_send_scrobble e st).1 = some l ∧
      has_ts e.timestamp l := by
  have h1 : do_send_scrobble e st =
      ({ st with cache := cacheInsert e st.cache }, .threw) := by
    simp [do_send_scrobble, send_scrobbles_coalesced, hflag]
  refine ⟨h1, ?_, ?_⟩
  · rw [h1]
    exact has_ts_cacheInsert_self e st.cache
  · rw [h1]
    exact ⟨cacheInsert e st.cache, by simp [as20_shutdown, hpath],
      has_ts_cacheInsert_self e st.cache⟩

/-- Witness for C10 on a concrete poisoned instance with a store path. -/
theorem C10_poisoned_submit_still_cached_witness :
    (⟨[], true, []⟩ : as20_state).fail_flag = true ∧ "store.json" ≠ "" ∧
    (do_send_scrobble { timestamp := 4 } ⟨[], true, []⟩ =
      (⟨[{ timestamp := 4 }], true, []⟩, .threw) ∧
     has_ts 4 (do_send_scrobble { timestamp := 4 } ⟨[], true, []⟩).1.cache ∧
     ∃ l, as20_shutdown "store.json"
        (do_send_scrobble { timestamp := 4 } ⟨[], true, []⟩).1 = some l ∧
       has_ts 4 l) := by
  refine ⟨rfl, by decide, ?_⟩
  have h := C10_poisoned_submit_still_cached ⟨[], true, []⟩ { timestamp := 4 }
    "store.json" rfl (by decide)
  simpa [cacheInsert] using h

end mpdfm
